import Mathlib

/-!
Verification of the core components of the gospidertrap HTTP honeypot:
the per-IP rate limiter (internal/ratelimit), the statistics engine with
its in-memory and SQLite backends (internal/stats), the client-IP
resolver, and the file-to-database migration routine.

Go maps keyed by strings are embedded as association lists; machine
integers that only ever count upwards are embedded as Nat; wall-clock
times are embedded as exact rationals (rate limiter) or integers
(timestamps).  Fallible operations return Except.
-/

set_option autoImplicit false

/-! ## Association-list helpers (the embedding of Go maps) -/

/-- First value bound to key k, mirroring a Go map lookup. -/
def assocFind {α : Type} (k : String) : List (String × α) → Option α
  | [] => none
  | p :: t => if p.1 = k then some p.2 else assocFind k t

/-- Replace the value bound to the first occurrence of key k, mirroring a
Go map assignment to an existing key. -/
def assocSet {α : Type} (k : String) (v : α) : List (String × α) → List (String × α)
  | [] => []
  | p :: t => if p.1 = k then (k, v) :: t else p :: assocSet k v t

/-- Sum of a numeric projection of the values of an association list. -/
def sumBy {α : Type} (f : α → Nat) (m : List (String × α)) : Nat :=
  (m.map (fun p => f p.2)).sum

namespace Ratelimit

/-- Modelled from the spec: the off-the-shelf token-bucket primitive
(golang.org/x/time/rate, not part of this repository).  A bucket carries
its current token level and the time of the last refill; tokens refill
proportionally to elapsed time, capped at the burst capacity, and an
allowed request consumes one token. -/
structure Bucket where
  tokens : ℚ
  last : ℚ
deriving DecidableEq, Repr

/-- Minimum of two rationals, written out so kernel reduction is direct. -/
def qmin (a b : ℚ) : ℚ := if a ≤ b then a else b

/-- Modelled from the spec: token level of a bucket at time now, after
refilling proportionally to elapsed time and capping at the burst. -/
def tokensAt (rate burst : ℚ) (b : Bucket) (now : ℚ) : ℚ :=
  qmin burst (b.tokens + (now - b.last) * rate)

/-- Modelled from the spec: one Allow step of the token bucket: refill,
then consume one token if at least one is available, deny otherwise. -/
def bucketAllow (rate burst : ℚ) (b : Bucket) (now : ℚ) : Bool × Bucket :=
  let t := tokensAt rate burst b now
  if 1 ≤ t then (true, ⟨t - 1, now⟩) else (false, ⟨t, now⟩)

/-- maxTrackedIPs limits the number of unique IPs tracked (src/unnamed/part_006). -/
def maxTrackedIPs : Nat := 10000

/-- Limiter state: the key-to-bucket map together with the configured
rate and burst (src/unnamed/part_006, struct Limiter). -/
structure Limiter where
  limiters : List (String × Bucket)
  rate : ℚ
  burst : ℚ
deriving DecidableEq, Repr

/-- NewLimiter with an empty tracked-key map (src/unnamed/part_006, NewLimiter). -/
def newLimiter (rate burst : ℚ) : Limiter := ⟨[], rate, burst⟩

/-- Limiter.Allow (src/unnamed/part_006 lines 54-70): look the key up;
for an unseen key, reject without inserting when the map already holds
maxTrackedIPs keys, otherwise create a fresh full bucket; finally run
the token-bucket Allow on the (possibly new) bucket. -/
def allow (l : Limiter) (ip : String) (now : ℚ) : Bool × Limiter :=
  match assocFind ip l.limiters with
  | some b =>
    let r := bucketAllow l.rate l.burst b now
    (r.1, { l with limiters := assocSet ip r.2 l.limiters })
  | none =>
    if maxTrackedIPs ≤ l.limiters.length then
      (false, l)
    else
      let b : Bucket := ⟨l.burst, now⟩
      let r := bucketAllow l.rate l.burst b now
      (r.1, { l with limiters := (ip, r.2) :: l.limiters })

/-- Limiter.Stats (src/unnamed/part_006 lines 119-123): number of tracked keys. -/
def stats (l : Limiter) : Nat := l.limiters.length

/-- Limiter.cleanupOldEntries (src/unnamed/part_006 lines 90-100): delete
every bucket whose token level at sweep time has reached the full burst. -/
def cleanupOldEntries (l : Limiter) (now : ℚ) : Limiter :=
  { l with limiters := l.limiters.filter (fun p => decide (tokensAt l.rate l.burst p.2 now < l.burst)) }

/-- Replay a sequence of (key, time) Allow calls from a fresh limiter,
returning the final state. -/
def replayAllow (rate burst : ℚ) (calls : List (String × ℚ)) : Limiter :=
  calls.foldl (fun l c => (allow l c.1 c.2).2) (newLimiter rate burst)

/-- Replay a sequence of (key, time) Allow calls from a fresh limiter,
returning the list of boolean outcomes and the final state. -/
def replayAllowOut (rate burst : ℚ) (calls : List (String × ℚ)) : List Bool × Limiter :=
  calls.foldl (fun acc c =>
    let r := allow acc.2 c.1 c.2
    (acc.1 ++ [r.1], r.2)) ([], newLimiter rate burst)

end Ratelimit

namespace Stats

/-- Code points of the Unicode White_Space property, the set trimmed by
the Go standard library TrimSpace used in GetClientIP. -/
def goWhitespace : List Nat :=
  [0x9, 0xA, 0xB, 0xC, 0xD, 0x20, 0x85, 0xA0, 0x1680,
   0x2000, 0x2001, 0x2002, 0x2003, 0x2004, 0x2005, 0x2006, 0x2007,
   0x2008, 0x2009, 0x200A, 0x2028, 0x2029, 0x202F, 0x205F, 0x3000]

/-- Whether a character is Unicode white space in the Go sense. -/
def isGoSpace (c : Char) : Bool := goWhitespace.contains c.toNat

/-- strings.TrimSpace: drop white space from both ends. -/
def trimSpace (s : String) : String :=
  String.mk (((s.toList.dropWhile isGoSpace).reverse.dropWhile isGoSpace).reverse)

/-- strings.Split on a comma separator, written out over the character
list: a split of any string has one more piece than it has commas, so it
is never empty (the empty string splits to one empty piece). -/
def splitCommaL : List Char → List (List Char)
  | [] => [[]]
  | c :: rest =>
    if c = ',' then [] :: splitCommaL rest
    else
      match splitCommaL rest with
      | [] => [[c]]
      | h :: t => (c :: h) :: t

/-- strings.Split(s, comma) as used on the X-Forwarded-For header. -/
def splitComma (s : String) : List String := (splitCommaL s.toList).map String.mk

/-- Index of the last occurrence of a character, mirroring strings.LastIndex
restricted to a single-character needle. -/
def lastIdx (c : Char) : List Char → Option Nat
  | [] => none
  | x :: xs =>
    match lastIdx c xs with
    | some i => some (i + 1)
    | none => if x = c then some 0 else none

/-- The RemoteAddr fallback of GetClientIP (src/unnamed/part_010 lines
59-64): keep everything before the last colon when one exists. -/
def stripPortL (l : List Char) : List Char :=
  match lastIdx ':' l with
  | none => l
  | some i => l.take i

/-- String-level wrapper for the RemoteAddr port stripping. -/
def stripPort (s : String) : String := String.mk (stripPortL s.toList)

/-- The X-Forwarded-For branch of GetClientIP (src/unnamed/part_010 lines
40-49): on a non-empty header, split on commas and accept the trimmed
first entry only when it passes IP validation.  The validity test
validIP stands for net.ParseIP returning non-nil; the headD default is
only nominal since the split of a non-empty string is non-empty. -/
def xffCandidate (validIP : String → Bool) (xff : String) : Option String :=
  if xff ≠ ("") then
    let ips := splitComma xff
    if 0 < ips.length then
      let ip := trimSpace (ips.headD (""))
      if validIP ip then some ip else none
    else none
  else none

/-- The X-Real-IP branch of GetClientIP (src/unnamed/part_010 lines 51-57):
accept the trimmed non-empty header only when it passes IP validation. -/
def xriCandidate (validIP : String → Bool) (xri : String) : Option String :=
  if xri ≠ ("") then
    let ip := trimSpace xri
    if validIP ip then some ip else none
  else none

/-- IPResolver.GetClientIP (src/unnamed/part_010 lines 37-65), with the
net.ParseIP validity test abstracted as the predicate validIP.  When proxy
trust is enabled the X-Forwarded-For branch is tried first, then
X-Real-IP; in all remaining cases the port-stripped RemoteAddr is used. -/
def getClientIP (validIP : String → Bool) (trustProxy : Bool)
    (xff xri remoteAddr : String) : String :=
  if trustProxy then
    match xffCandidate validIP xff with
    | some ip => ip
    | none =>
      match xriCandidate validIP xri with
      | some ip => ip
      | none => stripPort remoteAddr
  else stripPort remoteAddr

/-- The claim's own description of GetClientIP, written from the spec
sentence: prefer the whitespace-trimmed first comma-separated entry of
X-Forwarded-For exactly when it is a valid IP, else the trimmed X-Real-IP
under the same test, else the port-stripped RemoteAddr; header values are
never consulted when proxy trust is disabled. -/
def clientIPSpec (validIP : String → Bool) (trustProxy : Bool)
    (xff xri remoteAddr : String) : String :=
  if trustProxy then
    let first := trimSpace ((splitComma xff).headD (""))
    if validIP first then first
    else
      let real := trimSpace xri
      if validIP real then real
      else stripPort remoteAddr
  else stripPort remoteAddr

/-- RequestInfo (src/unnamed/part_011): one recorded request. -/
structure RequestInfo where
  ip : String
  userAgent : String
  path : String
  timestamp : Int
deriving DecidableEq, Inhabited, Repr

/-- In-memory Stats (src/unnamed/part_011, struct Stats), without the
mutex and without StartTime, which no tracked operation reads or writes
besides initialization. -/
structure MemStats where
  totalRequests : Nat
  ipCounts : List (String × Nat)
  userAgents : List (String × Nat)
  recentRequests : List RequestInfo
  maxRecentRequests : Nat
deriving DecidableEq, Repr

/-- Memory limit constants of the file mode (src/unnamed/part_010 lines 367-371). -/
def maxTrackedIPs : Nat := 10000

/-- Maximum number of unique user agents tracked in file mode. -/
def maxTrackedUserAgents : Nat := 1000

/-- NewStats (src/unnamed/part_011): empty maps, empty recent list,
window of 100 recent requests. -/
def newStats : MemStats := ⟨0, [], [], [], 100⟩

/-- The bounded map update of Manager.RecordRequest (src/unnamed/part_010
lines 146-150 and 153-157, identical shape for both maps): increment a
known key; insert an unseen key with count 1 only while the map is below
the cardinality ceiling, else drop it.  The source instantiates cap with
maxTrackedIPs respectively maxTrackedUserAgents. -/
def bumpBounded (cap : Nat) (m : List (String × Nat)) (k : String) : List (String × Nat) :=
  match assocFind k m with
  | some n => assocSet k (n + 1) m
  | none => if m.length < cap then (k, 1) :: m else m

/-- The in-memory branch of Manager.RecordRequest (src/unnamed/part_010
lines 113-168): default a blank user agent to Unknown, bump the total,
bump both bounded maps, append to the recent ring and drop its oldest
entry when over capacity. -/
def managerRecordMem (s : MemStats) (ip userAgentRaw path : String) (ts : Int) : MemStats :=
  let userAgent := if userAgentRaw = ("") then ("Unknown") else userAgentRaw
  let req : RequestInfo := ⟨ip, userAgent, path, ts⟩
  let recent := s.recentRequests ++ [req]
  { totalRequests := s.totalRequests + 1
    ipCounts := bumpBounded maxTrackedIPs s.ipCounts ip
    userAgents := bumpBounded maxTrackedUserAgents s.userAgents userAgent
    recentRequests := if s.maxRecentRequests < recent.length then recent.drop 1 else recent
    maxRecentRequests := s.maxRecentRequests }

/-- Replay a request sequence through the in-memory RecordRequest. -/
def replayMem (reqs : List RequestInfo) (s : MemStats) : MemStats :=
  reqs.foldl (fun st r => managerRecordMem st r.ip r.userAgent r.path r.timestamp) s

/-- Whether a replay never hits the per-key (IP) cardinality ceiling:
before each step, the request key is either already tracked or the map
still has room. -/
def noCeilingMem : List RequestInfo → MemStats → Bool
  | [], _ => true
  | r :: rs, s =>
    ((assocFind r.ip s.ipCounts).isSome || decide (s.ipCounts.length < maxTrackedIPs)) &&
      noCeilingMem rs (managerRecordMem s r.ip r.userAgent r.path r.timestamp)

/-- The in-memory branch of Manager.GetRecentRequests (src/unnamed/part_010
lines 320-353): empty result for an empty ring; otherwise copy count
entries in reverse chronological order, where count is the limit only when
the limit is positive and below the ring size, and the whole ring size
otherwise. -/
def getRecentRequestsMem (s : MemStats) (limit : Int) : List RequestInfo :=
  let total := s.recentRequests.length
  if total = 0 then []
  else
    let count : Nat := if 0 < limit ∧ limit < (total : Int) then limit.toNat else total
    (List.range count).map (fun i => s.recentRequests.getD (total - 1 - i) default)

/-- One row of ip_counts or user_agent_counts (src/unnamed/part_009 schema). -/
structure CountRow where
  count : Nat
  firstSeen : Int
  lastSeen : Int
deriving DecidableEq, Repr

/-- The SQLite database state (src/unnamed/part_009 schema): the singleton
stats row (start_time, total_requests, updated_at), the two aggregate
tables as maps, and the append-only request_log in commit (rowid) order. -/
structure DBState where
  startTime : Int
  totalRequests : Nat
  updatedAt : Int
  ipCounts : List (String × CountRow)
  uaCounts : List (String × CountRow)
  requestLog : List RequestInfo
deriving DecidableEq, Repr

/-- Mutation 1 of Database.RecordRequest: INSERT INTO request_log. -/
def insertRequestLog (db : DBState) (req : RequestInfo) : DBState :=
  { db with requestLog := db.requestLog ++ [req] }

/-- The upsert of ip_counts and user_agent_counts: insert with count 1 and
both seen-stamps at the request timestamp, or on conflict increment the
count and bump last_seen. -/
def upsertCount (m : List (String × CountRow)) (k : String) (ts : Int) :
    List (String × CountRow) :=
  match assocFind k m with
  | some row => assocSet k { row with count := row.count + 1, lastSeen := ts } m
  | none => m ++ [(k, ⟨1, ts, ts⟩)]

/-- Mutation 2 of Database.RecordRequest: upsert of ip_counts. -/
def updateIPCount (db : DBState) (req : RequestInfo) : DBState :=
  { db with ipCounts := upsertCount db.ipCounts req.ip req.timestamp }

/-- Mutation 3 of Database.RecordRequest: upsert of user_agent_counts. -/
def updateUACount (db : DBState) (req : RequestInfo) : DBState :=
  { db with uaCounts := upsertCount db.uaCounts req.userAgent req.timestamp }

/-- Mutation 4 of Database.RecordRequest: UPDATE stats SET
total_requests = total_requests + 1, updated_at = now WHERE id = 1. -/
def incrementTotal (db : DBState) (now : Int) : DBState :=
  { db with totalRequests := db.totalRequests + 1, updatedAt := now }

/-- The four mutations of Database.RecordRequest applied in order. -/
def applyRecord (db : DBState) (now : Int) (req : RequestInfo) : DBState :=
  incrementTotal (updateUACount (updateIPCount (insertRequestLog db req) req) req) now

/-- Which of the fallible steps of Database.RecordRequest fail: the BeginTx
call, each of the four ExecContext statements, and the Commit. -/
structure FailPlan where
  beginFails : Bool
  logFails : Bool
  ipFails : Bool
  uaFails : Bool
  statsFails : Bool
  commitFails : Bool
deriving DecidableEq, Repr

/-- The plan on which every step succeeds. -/
def noFail : FailPlan := ⟨false, false, false, false, false, false⟩

/-- Database.RecordRequest (src/unnamed/part_009 lines 140-199): inside one
transaction, append to request_log, upsert ip_counts, upsert
user_agent_counts and increment the stats singleton; any failing step
returns an error and rolls the transaction back (the deferred Rollback),
so the committed state is the unchanged input; only Commit installs the
draft.  Returns the call result together with the committed state. -/
def dbRecordRequest (p : FailPlan) (db : DBState) (now : Int) (req : RequestInfo) :
    Except String DBState × DBState :=
  if p.beginFails then (Except.error ("failed to begin transaction"), db)
  else if p.logFails then (Except.error ("failed to insert request log"), db)
  else
    let tx1 := insertRequestLog db req
    if p.ipFails then (Except.error ("failed to update IP count"), db)
    else
      let tx2 := updateIPCount tx1 req
      if p.uaFails then (Except.error ("failed to update user agent count"), db)
      else
        let tx3 := updateUACount tx2 req
        if p.statsFails then (Except.error ("failed to update total requests"), db)
        else
          let tx4 := incrementTotal tx3 now
          if p.commitFails then (Except.error ("failed to commit transaction"), db)
          else (Except.ok tx4, tx4)

/-- Replay a request sequence through the durable RecordRequest with every
step succeeding, keeping the committed state. -/
def replayDB (reqs : List RequestInfo) (db : DBState) : DBState :=
  reqs.foldl (fun d r => (dbRecordRequest noFail d r.timestamp r).2) db

/-- A fresh database: schema created, stats row initialized with
total_requests 0 and empty tables (src/unnamed/part_009, NewDatabase). -/
def initDB (st : Int) : DBState := ⟨st, 0, st, [], [], []⟩

/-- Descending-timestamp order used by the recent-requests query. -/
def tsDescOrder (a b : RequestInfo) : Prop := b.timestamp ≤ a.timestamp

instance : DecidableRel tsDescOrder := fun a b => Int.decLe b.timestamp a.timestamp

/-- The ORDER BY timestamp DESC of Database.GetRecentRequests, modelled as
a stable insertion sort of the commit-ordered log; SQLite leaves the
relative order of equal timestamps unspecified, and this model fixes one
deterministic choice. -/
def sortByTimestampDesc (l : List RequestInfo) : List RequestInfo :=
  List.insertionSort tsDescOrder l

/-- Database.GetRecentRequests (src/unnamed/part_009 lines 282-310):
SELECT ... ORDER BY timestamp DESC LIMIT ?.  A negative LIMIT means no
limit in SQLite. -/
def dbGetRecentRequests (db : DBState) (limit : Int) : List RequestInfo :=
  let sorted := sortByTimestampDesc db.requestLog
  if limit < 0 then sorted else sorted.take limit.toNat

/-- The user-agent label truncation of GetChartData (src/unnamed/part_010
lines 204-206 and the identical lines 276-278): a label whose length
exceeds maxLen is cut to its first maxLen - 3 characters plus a
three-character ellipsis; for maxLen below 3 the Go slice index is
negative and the slice expression panics, modelled as none. -/
def truncateUA (maxLen : Int) (ua : String) : Option String :=
  if maxLen < (ua.length : Int) then
    if maxLen - 3 < 0 then none
    else some (String.mk (ua.toList.take (maxLen - 3).toNat) ++ ("..."))
  else some ua

/-- The legacy flat files seen by the migration: the requests.ndjson line
list and the stats.json content, each either present or absent, plus
their renamed .migrated backups. -/
structure LegacyFS where
  requests : Option (List String)
  requestsBak : Option (List String)
  statsFile : Option String
  statsBak : Option String
deriving DecidableEq, Repr

/-- PersistedStats (src/unnamed/part_011) restricted to the one field the
migration reads, the start time. -/
structure PersistedStats where
  startTime : Int
deriving DecidableEq, Repr

/-- The UPDATE of migrateStatsJSON (src/unnamed/part_010 lines 547-551):
set start_time to the persisted one only when the persisted one is
earlier. -/
def migrateStatsApply (db : DBState) (ps : PersistedStats) : DBState :=
  if ps.startTime < db.startTime then { db with startTime := ps.startTime } else db

/-- migrateRequestsNDJSON (src/unnamed/part_010 lines 480-522): parse each
line, skipping unparseable ones, and replay every parsed request through
the durable RecordRequest. -/
def importRequests (parseReq : String → Option RequestInfo) (now : Int)
    (lines : List String) (db : DBState) : DBState :=
  lines.foldl (fun d line =>
    match parseReq line with
    | none => d
    | some req => (dbRecordRequest noFail d now req).2) db

/-- The stats.json phase of MigrateFromFiles: nothing to do when the file
is absent; an unparseable file is an error (and the file is then not
renamed); otherwise apply the start-time update and rename the file to
its .migrated backup.  The rename can fail (renameStatsOk false): the
source (src/unnamed/part_010 lines 468-472) only Warn-logs that failure
and still returns nil, leaving stats.json in place. -/
def migrateStatsPhase (parseStats : String → Option PersistedStats)
    (renameStatsOk : Bool) (st : LegacyFS × DBState) :
    Except String Unit × LegacyFS × DBState :=
  match st.1.statsFile with
  | none => (Except.ok (), st.1, st.2)
  | some content =>
    match parseStats content with
    | none => (Except.error ("failed to unmarshal stats"), st.1, st.2)
    | some ps =>
      if renameStatsOk then
        (Except.ok (), { st.1 with statsFile := none, statsBak := some content },
         migrateStatsApply st.2 ps)
      else (Except.ok (), st.1, migrateStatsApply st.2 ps)

/-- MigrateFromFiles (src/unnamed/part_010 lines 430-477): no-op without a
data directory or when neither legacy file exists; otherwise import the
request lines and rename requests.ndjson to its .migrated backup, then run
the stats phase.  JSON parsing is abstracted by the two parse functions.
Each run's two os.Rename calls succeed or fail per the renameReqOk and
renameStatsOk flags; a failed rename is only Warn-logged by the source
(lines 455-459 and 468-472), which still returns nil and leaves the
legacy file in place to be re-imported by a later run. -/
def migrateFromFiles (parseReq : String → Option RequestInfo)
    (parseStats : String → Option PersistedStats) (hasDataDir : Bool)
    (renameReqOk renameStatsOk : Bool) (now : Int)
    (fs : LegacyFS) (db : DBState) : Except String Unit × LegacyFS × DBState :=
  if ¬ hasDataDir then (Except.ok (), fs, db)
  else if fs.requests.isNone && fs.statsFile.isNone then (Except.ok (), fs, db)
  else
    migrateStatsPhase parseStats renameStatsOk
      (match fs.requests with
       | none => (fs, db)
       | some lines =>
         if renameReqOk then
           ({ fs with requests := none, requestsBak := some lines },
            importRequests parseReq now lines db)
         else (fs, importRequests parseReq now lines db))

end Stats

/-! ## Theorems -/

namespace Ratelimit

theorem assocSet_length {α : Type} (k : String) (v : α) :
    ∀ m : List (String × α), (assocSet k v m).length = m.length := by
  intro m
  induction m with
  | nil => rfl
  | cons p t ih =>
    by_cases h : p.1 = k <;> simp [assocSet, h, ih]

theorem assocFind_eq_none_of_forall {α : Type} (k : String) (m : List (String × α))
    (h : ∀ p ∈ m, p.1 ≠ k) : assocFind k m = none := by
  induction m with
  | nil => rfl
  | cons p t ih =>
    have hp : p.1 ≠ k := h p (by simp)
    simp only [assocFind, hp, if_false]
    exact ih (fun q hq => h q (by simp [hq]))

theorem stats_allow_le (l : Limiter) (ip : String) (now : ℚ)
    (h : stats l ≤ maxTrackedIPs) : stats (allow l ip now).2 ≤ maxTrackedIPs := by
  unfold allow
  cases hf : assocFind ip l.limiters with
  | some b =>
    simpa [stats, assocSet_length] using h
  | none =>
    by_cases hc : maxTrackedIPs ≤ l.limiters.length
    · simpa [hc, stats] using h
    · simp only [hc, if_false]
      simp only [stats, List.length_cons] at *
      omega

theorem stats_replay_le (rate burst : ℚ) (calls : List (String × ℚ)) :
    stats (replayAllow rate burst calls) ≤ maxTrackedIPs := by
  have key : ∀ (cs : List (String × ℚ)) (l : Limiter), stats l ≤ maxTrackedIPs →
      stats (cs.foldl (fun l c => (allow l c.1 c.2).2) l) ≤ maxTrackedIPs := by
    intro cs
    induction cs with
    | nil => intro l h; simpa using h
    | cons c t ih =>
      intro l h
      exact ih _ (stats_allow_le l c.1 c.2 h)
  exact key calls (newLimiter rate burst) (by simp [stats, newLimiter])

/-- C1: for every sequence of Allow calls the number of tracked keys never
exceeds the ceiling maxTrackedIPs = 10000; and an Allow call for an
untracked key made while the tracked-key count is at or above the ceiling
returns false and leaves the limiter (hence Stats) unchanged. -/
theorem limiter_tracked_keys_bounded (rate burst : ℚ) (calls : List (String × ℚ))
    (l : Limiter) (ip : String) (now : ℚ)
    (hnew : assocFind ip l.limiters = none)
    (hfull : maxTrackedIPs ≤ l.limiters.length) :
    stats (replayAllow rate burst calls) ≤ maxTrackedIPs ∧
    allow l ip now = (false, l) ∧
    stats (allow l ip now).2 = stats l := by
  refine ⟨stats_replay_le rate burst calls, ?_, ?_⟩
  · unfold allow
    simp [hnew, hfull]
  · unfold allow
    simp [hnew, hfull]

/-- Witness for C1: a limiter already holding 10000 tracked keys rejects a
fresh key without growing, and a small replayed call sequence stays at or
under the ceiling. -/
theorem limiter_tracked_keys_bounded_witness :
    stats (replayAllow 10 20 [(("b"), 0), (("c"), 1)]) ≤ maxTrackedIPs ∧
    allow ⟨List.replicate 10000 (("a"), ⟨20, 0⟩), 10, 20⟩ ("") 0 =
      (false, ⟨List.replicate 10000 (("a"), ⟨20, 0⟩), 10, 20⟩) ∧
    stats (allow ⟨List.replicate 10000 (("a"), ⟨20, 0⟩), 10, 20⟩ ("") 0).2 =
      stats ⟨List.replicate 10000 (("a"), ⟨20, 0⟩), 10, 20⟩ := by
  refine limiter_tracked_keys_bounded 10 20 _ _ _ 0 ?_ ?_
  · refine assocFind_eq_none_of_forall _ _ ?_
    intro p hp
    have hpa : p = (("a"), (⟨20, 0⟩ : Bucket)) := List.eq_of_mem_replicate hp
    subst hpa
    decide
  · show maxTrackedIPs ≤ (List.replicate 10000 ((("a") : String), (⟨20, 0⟩ : Bucket))).length
    rw [List.length_replicate]
    exact Nat.le_refl _

/-- C2 counterexample: with rate 10 and burst 20, the 20 immediate calls
from key A are allowed and the 21st is denied, but after 1.2 seconds the
bucket has only 12 of its 20 tokens back, so a sweep at 1.2 seconds does
NOT evict key A: Stats still counts it. -/
theorem limiter_sweep_after_1_2s_keeps_key :
    (replayAllowOut 10 20 (List.replicate 21 (("A"), 0))).1 =
      List.replicate 20 true ++ [false] ∧
    stats (cleanupOldEntries (replayAllowOut 10 20 (List.replicate 21 (("A"), 0))).2 (6/5)) = 1 := by
  constructor
  · norm_num [replayAllowOut, allow, bucketAllow, tokensAt, qmin, assocFind, assocSet,
      newLimiter, maxTrackedIPs, List.replicate]
  · norm_num [replayAllowOut, allow, bucketAllow, tokensAt, qmin, assocFind, assocSet,
      newLimiter, cleanupOldEntries, stats, maxTrackedIPs, List.replicate]

/-- C2 (amended): with rate 10 and burst 20, the 20 immediate calls from
key A are allowed, the 21st immediate call is denied, and after 2 seconds
with no further traffic a single sweep evicts key A, so Stats no longer
counts it. -/
theorem limiter_burst_then_sweep :
    (replayAllowOut 10 20 (List.replicate 21 (("A"), 0))).1 =
      List.replicate 20 true ++ [false] ∧
    stats (cleanupOldEntries (replayAllowOut 10 20 (List.replicate 21 (("A"), 0))).2 2) = 0 := by
  constructor
  · norm_num [replayAllowOut, allow, bucketAllow, tokensAt, qmin, assocFind, assocSet,
      newLimiter, maxTrackedIPs, List.replicate]
  · norm_num [replayAllowOut, allow, bucketAllow, tokensAt, qmin, assocFind, assocSet,
      newLimiter, cleanupOldEntries, stats, maxTrackedIPs, List.replicate]

end Ratelimit

namespace Stats

theorem trimSpace_empty : trimSpace ("") = ("") := rfl

theorem lastIdx_eq_none_iff (c : Char) : ∀ l : List Char, lastIdx c l = none ↔ c ∉ l := by
  intro l
  induction l with
  | nil => simp [lastIdx]
  | cons x xs ih =>
    simp only [lastIdx]
    cases h : lastIdx c xs with
    | some i =>
      have hmem : c ∈ xs := by
        by_contra hc
        rw [(ih).mpr hc] at h
        exact Option.noConfusion h
      simp [List.mem_cons, hmem]
    | none =>
      have hnot : c ∉ xs := (ih).mp h
      by_cases hx : x = c
      · simp [hx]
      · simp [hx, List.mem_cons, hnot]
        intro hc
        exact hx hc.symm

theorem lastIdx_drop (c : Char) :
    ∀ (l : List Char) (i : Nat), lastIdx c l = some i →
      ∃ suf, l.drop i = c :: suf ∧ c ∉ suf := by
  intro l
  induction l with
  | nil => intro i h; exact Option.noConfusion h
  | cons x xs ih =>
    intro i h
    simp only [lastIdx] at h
    cases hx : lastIdx c xs with
    | some j =>
      rw [hx] at h
      have hij : i = j + 1 := (Option.some_inj.mp h).symm
      subst hij
      simpa using ih j hx
    | none =>
      rw [hx] at h
      by_cases hxc : x = c
      · simp only [hxc, if_true] at h
        have hi0 : i = 0 := (Option.some_inj.mp h).symm
        subst hi0
        exact ⟨xs, by simp [hxc], (lastIdx_eq_none_iff c xs).mp hx⟩
      · simp [hxc] at h

/-- C10: on the RemoteAddr fallback path, an address containing a colon is
returned as exactly the prefix before its last colon (so a bare IPv6
address loses its final hextet group), and an address with no colon is
returned unchanged. -/
theorem strip_port_before_last_colon (l l' : List Char)
    (h : ':' ∈ l) (h' : ':' ∉ l') :
    (∃ pre suf, l = pre ++ ':' :: suf ∧ ':' ∉ suf ∧ stripPortL l = pre) ∧
    stripPortL l' = l' := by
  constructor
  · cases hc : lastIdx ':' l with
    | none => exact absurd h ((lastIdx_eq_none_iff _ l).mp hc)
    | some i =>
      obtain ⟨suf, hdrop, hnots⟩ := lastIdx_drop ':' l i hc
      refine ⟨l.take i, suf, ?_, hnots, ?_⟩
      · conv_lhs => rw [← List.take_append_drop i l]
        rw [hdrop]
      · simp [stripPortL, hc]
  · simp [stripPortL, (lastIdx_eq_none_iff ':' l').mpr h']

/-- Witness for C10: the bare IPv6 address 2001:db8::1 is split at its last
colon, and the colon-free address 10.0.0.8 is returned unchanged. -/
theorem strip_port_before_last_colon_witness :
    ((∃ pre suf, ("2001:db8::1").toList = pre ++ ':' :: suf ∧ ':' ∉ suf ∧
        stripPortL (("2001:db8::1").toList) = pre) ∧
      stripPortL (("10.0.0.8").toList) = ("10.0.0.8").toList) ∧
    stripPort ("2001:db8::1") = ("2001:db8:") := by
  constructor
  · exact strip_port_before_last_colon _ _ (by decide) (by decide)
  · decide

theorem xri_stage (validIP : String → Bool) (hempty : validIP ("") = false)
    (xri remote : String) :
    (match xriCandidate validIP xri with
     | some ip => ip
     | none => stripPort remote) =
    (if validIP (trimSpace xri) then trimSpace xri else stripPort remote) := by
  by_cases hr : xri = ("")
  · subst hr
    simp [xriCandidate, trimSpace_empty, hempty]
  · by_cases hv : validIP (trimSpace xri)
    · simp [xriCandidate, hr, hv]
    · simp [xriCandidate, hr, hv]

/-- C3: GetClientIP agrees everywhere with the claim's description: with
proxy trust on, the trimmed first X-Forwarded-For entry exactly when it
validates as an IP, else the trimmed X-Real-IP under the same test, else
the port-stripped RemoteAddr; with proxy trust off, always the
port-stripped RemoteAddr.  The only assumption is that the validity test
rejects the empty string, as net.ParseIP does. -/
theorem getClientIP_matches_spec (validIP : String → Bool)
    (hempty : validIP ("") = false) (trustProxy : Bool)
    (xff xri remoteAddr : String) :
    getClientIP validIP trustProxy xff xri remoteAddr =
      clientIPSpec validIP trustProxy xff xri remoteAddr := by
  cases trustProxy with
  | false => rfl
  | true =>
    show (match xffCandidate validIP xff with
          | some ip => ip
          | none =>
            match xriCandidate validIP xri with
            | some ip => ip
            | none => stripPort remoteAddr) = _
    by_cases hx : xff = ("")
    · subst hx
      have hxc : xffCandidate validIP ("") = none := by simp [xffCandidate]
      rw [hxc]
      show (match xriCandidate validIP xri with
            | some ip => ip
            | none => stripPort remoteAddr) = _
      rw [xri_stage validIP hempty xri remoteAddr]
      simp [clientIPSpec, splitComma, splitCommaL, trimSpace, hempty]
    · cases hl : splitComma xff with
      | nil =>
        have hxc : xffCandidate validIP xff = none := by
          simp [xffCandidate, hx, hl]
        rw [hxc]
        rw [xri_stage validIP hempty xri remoteAddr]
        simp [clientIPSpec, hl, trimSpace_empty, hempty]
      | cons a t =>
        by_cases hv : validIP (trimSpace a)
        · have hxc : xffCandidate validIP xff = some (trimSpace a) := by
            simp [xffCandidate, hx, hl, hv]
          rw [hxc]
          simp [clientIPSpec, hl, hv]
        · have hxc : xffCandidate validIP xff = none := by
            simp [xffCandidate, hx, hl, hv]
          rw [hxc]
          rw [xri_stage validIP hempty xri remoteAddr]
          simp [clientIPSpec, hl, hv]

/-- Witness for C3: a concrete validity test (equality with 203.0.113.7,
which rejects the empty string) and concrete headers instantiate the
equivalence. -/
theorem getClientIP_matches_spec_witness :
    getClientIP (fun s => decide (s = ("203.0.113.7"))) true
        (" 203.0.113.7 , 10.0.0.1") ("") ("198.51.100.4:8080") =
      clientIPSpec (fun s => decide (s = ("203.0.113.7"))) true
        (" 203.0.113.7 , 10.0.0.1") ("") ("198.51.100.4:8080") :=
  getClientIP_matches_spec (fun s => decide (s = ("203.0.113.7")))
    (by decide) true (" 203.0.113.7 , 10.0.0.1") ("") ("198.51.100.4:8080")

end Stats

namespace Stats

theorem sumBy_cons {α : Type} (f : α → Nat) (p : String × α) (t : List (String × α)) :
    sumBy f (p :: t) = f p.2 + sumBy f t := by
  simp [sumBy]

theorem sumBy_append_single {α : Type} (f : α → Nat) (m : List (String × α)) (x : String × α) :
    sumBy f (m ++ [x]) = sumBy f m + f x.2 := by
  simp [sumBy]

theorem assocFind_assocSet_self {α : Type} (k : String) (v : α) :
    ∀ (m : List (String × α)) (a : α), assocFind k m = some a →
      assocFind k (assocSet k v m) = some v := by
  intro m
  induction m with
  | nil => intro a h; exact Option.noConfusion h
  | cons p t ih =>
    intro a h
    by_cases hp : p.1 = k
    · simp [assocSet, hp, assocFind]
    · simp only [assocFind, hp, if_false] at h
      simp only [assocSet, hp, if_false, assocFind]
      exact ih a h

theorem sumBy_assocSet {α : Type} (f : α → Nat) (k : String) (v : α) :
    ∀ (m : List (String × α)) (a : α), assocFind k m = some a → f v = f a + 1 →
      sumBy f (assocSet k v m) = sumBy f m + 1 := by
  intro m
  induction m with
  | nil => intro a h _; exact Option.noConfusion h
  | cons p t ih =>
    intro a h hv
    by_cases hp : p.1 = k
    · simp only [assocFind, hp, if_true, Option.some_inj] at h
      simp only [assocSet, hp, if_true, sumBy_cons]
      rw [hv, h]
      omega
    · simp only [assocFind, hp, if_false] at h
      simp only [assocSet, hp, if_false, sumBy_cons]
      rw [ih a h hv]
      omega

theorem sumBy_bumpBounded (cap : Nat) (m : List (String × Nat)) (k : String)
    (h : (assocFind k m).isSome ∨ m.length < cap) :
    sumBy (fun n => n) (bumpBounded cap m k) = sumBy (fun n => n) m + 1 := by
  unfold bumpBounded
  cases hf : assocFind k m with
  | some n => exact sumBy_assocSet (fun n => n) k (n + 1) m n hf rfl
  | none =>
    rcases h with h | h
    · rw [hf] at h
      exact absurd h (by simp)
    · simp only [h, if_true, sumBy_cons]
      omega

theorem sumBy_upsertCount (m : List (String × CountRow)) (k : String) (ts : Int) :
    sumBy CountRow.count (upsertCount m k ts) = sumBy CountRow.count m + 1 := by
  unfold upsertCount
  cases hf : assocFind k m with
  | some row => exact sumBy_assocSet CountRow.count k _ m row hf rfl
  | none => simp [sumBy_append_single]

/-- C4: Database.RecordRequest performs its four mutations inside one
transaction: whichever step fails, the call returns an error and the
committed state is the unchanged input; when every step succeeds it
returns nil and the committed state carries exactly the four mutations. -/
theorem db_record_request_atomic (p : FailPlan) (db : DBState) (now : Int)
    (req : RequestInfo) :
    (∃ e, dbRecordRequest p db now req = (Except.error e, db)) ∨
    dbRecordRequest p db now req =
      (Except.ok (applyRecord db now req), applyRecord db now req) := by
  obtain ⟨b1, b2, b3, b4, b5, b6⟩ := p
  cases b1 <;> cases b2 <;> cases b3 <;> cases b4 <;> cases b5 <;> cases b6 <;>
    first
      | exact Or.inl ⟨_, rfl⟩
      | exact Or.inr rfl

theorem replayMem_total_sum :
    ∀ (reqs : List RequestInfo) (s : MemStats), noCeilingMem reqs s = true →
      (replayMem reqs s).totalRequests = s.totalRequests + reqs.length ∧
      (sumBy (fun n => n) s.ipCounts = s.totalRequests →
        sumBy (fun n => n) (replayMem reqs s).ipCounts = (replayMem reqs s).totalRequests) := by
  intro reqs
  induction reqs with
  | nil =>
    intro s _
    exact ⟨by simp [replayMem], fun h => by simpa [replayMem] using h⟩
  | cons r rs ih =>
    intro s h
    have hsplit : ((assocFind r.ip s.ipCounts).isSome = true ∨
        s.ipCounts.length < maxTrackedIPs) ∧
        noCeilingMem rs (managerRecordMem s r.ip r.userAgent r.path r.timestamp) = true := by
      simpa [noCeilingMem] using h
    obtain ⟨hcond2, hrest⟩ := hsplit
    have hstep : replayMem (r :: rs) s =
        replayMem rs (managerRecordMem s r.ip r.userAgent r.path r.timestamp) := rfl
    have h1 : (managerRecordMem s r.ip r.userAgent r.path r.timestamp).totalRequests =
        s.totalRequests + 1 := rfl
    have h2 : (managerRecordMem s r.ip r.userAgent r.path r.timestamp).ipCounts =
        bumpBounded maxTrackedIPs s.ipCounts r.ip := rfl
    obtain ⟨iht, ihs⟩ := ih (managerRecordMem s r.ip r.userAgent r.path r.timestamp) hrest
    constructor
    · rw [hstep, iht, h1]
      simp only [List.length_cons]
      omega
    · intro hsum
      rw [hstep]
      apply ihs
      rw [h2, h1, sumBy_bumpBounded _ _ _ hcond2, hsum]

theorem replayDB_total_sum :
    ∀ (reqs : List RequestInfo) (db : DBState),
      (replayDB reqs db).totalRequests = db.totalRequests + reqs.length ∧
      (sumBy CountRow.count db.ipCounts = db.totalRequests →
        sumBy CountRow.count (replayDB reqs db).ipCounts =
          (replayDB reqs db).totalRequests) := by
  intro reqs
  induction reqs with
  | nil =>
    intro db
    exact ⟨by simp [replayDB], fun h => by simpa [replayDB] using h⟩
  | cons r rs ih =>
    intro db
    have hstep : replayDB (r :: rs) db = replayDB rs (applyRecord db r.timestamp r) := rfl
    have h1 : (applyRecord db r.timestamp r).totalRequests = db.totalRequests + 1 := rfl
    have h2 : (applyRecord db r.timestamp r).ipCounts =
        upsertCount db.ipCounts r.ip r.timestamp := rfl
    obtain ⟨iht, ihs⟩ := ih (applyRecord db r.timestamp r)
    constructor
    · rw [hstep, iht, h1]
      simp only [List.length_cons]
      omega
    · intro hsum
      rw [hstep]
      apply ihs
      rw [h2, h1, sumBy_upsertCount, hsum]

/-- C5: replaying any request sequence during which the per-key ceiling is
never hit gives totalRequests equal to the sequence length and makes the
per-key aggregate counts sum to totalRequests, in both the in-memory
backend (from a fresh NewStats) and the durable backend (from a fresh
database, which has no ceiling). -/
theorem replay_total_equals_length_and_sum (reqs : List RequestInfo) (st : Int)
    (h : noCeilingMem reqs newStats = true) :
    (replayMem reqs newStats).totalRequests = reqs.length ∧
    sumBy (fun n => n) (replayMem reqs newStats).ipCounts =
      (replayMem reqs newStats).totalRequests ∧
    (replayDB reqs (initDB st)).totalRequests = reqs.length ∧
    sumBy CountRow.count (replayDB reqs (initDB st)).ipCounts =
      (replayDB reqs (initDB st)).totalRequests := by
  obtain ⟨ht, hs⟩ := replayMem_total_sum reqs newStats h
  obtain ⟨ht2, hs2⟩ := replayDB_total_sum reqs (initDB st)
  refine ⟨by simpa [newStats] using ht, hs (by simp [newStats, sumBy]),
    by simpa [initDB] using ht2, hs2 (by simp [initDB, sumBy])⟩

/-- Witness for C5: a two-request sequence (same key twice, the second with
a blank user agent) replayed against both fresh backends. -/
theorem replay_total_equals_length_and_sum_witness :
    (replayMem [⟨("1.2.3.4"), ("curl/8"), ("/"), 0⟩, ⟨("1.2.3.4"), (""), ("/x"), 1⟩]
        newStats).totalRequests =
      ([⟨("1.2.3.4"), ("curl/8"), ("/"), 0⟩, ⟨("1.2.3.4"), (""), ("/x"), 1⟩] :
        List RequestInfo).length ∧
    sumBy (fun n => n)
        (replayMem [⟨("1.2.3.4"), ("curl/8"), ("/"), 0⟩, ⟨("1.2.3.4"), (""), ("/x"), 1⟩]
          newStats).ipCounts =
      (replayMem [⟨("1.2.3.4"), ("curl/8"), ("/"), 0⟩, ⟨("1.2.3.4"), (""), ("/x"), 1⟩]
        newStats).totalRequests ∧
    (replayDB [⟨("1.2.3.4"), ("curl/8"), ("/"), 0⟩, ⟨("1.2.3.4"), (""), ("/x"), 1⟩]
        (initDB 0)).totalRequests =
      ([⟨("1.2.3.4"), ("curl/8"), ("/"), 0⟩, ⟨("1.2.3.4"), (""), ("/x"), 1⟩] :
        List RequestInfo).length ∧
    sumBy CountRow.count
        (replayDB [⟨("1.2.3.4"), ("curl/8"), ("/"), 0⟩, ⟨("1.2.3.4"), (""), ("/x"), 1⟩]
          (initDB 0)).ipCounts =
      (replayDB [⟨("1.2.3.4"), ("curl/8"), ("/"), 0⟩, ⟨("1.2.3.4"), (""), ("/x"), 1⟩]
        (initDB 0)).totalRequests :=
  replay_total_equals_length_and_sum
    [⟨("1.2.3.4"), ("curl/8"), ("/"), 0⟩, ⟨("1.2.3.4"), (""), ("/x"), 1⟩] 0 (by decide)

/-- C6: once a bounded aggregate map is at its cardinality ceiling, an
unseen key leaves it unchanged while a tracked key still increments; and
with ceiling 2, recording keys A, B, C, then A again yields exactly two
tracked keys with A at 2, B at 1 and C absent. -/
theorem bounded_map_at_ceiling (cap : Nat) (m : List (String × Nat)) (knew kold : String)
    (n : Nat) (hfull : cap ≤ m.length) (hnew : assocFind knew m = none)
    (hold : assocFind kold m = some n) :
    bumpBounded cap m knew = m ∧
    assocFind kold (bumpBounded cap m kold) = some (n + 1) ∧
    ([("A"), ("B"), ("C"), ("A")].foldl (bumpBounded 2) []).length = 2 ∧
    assocFind ("A") ([("A"), ("B"), ("C"), ("A")].foldl (bumpBounded 2) []) = some 2 ∧
    assocFind ("B") ([("A"), ("B"), ("C"), ("A")].foldl (bumpBounded 2) []) = some 1 ∧
    assocFind ("C") ([("A"), ("B"), ("C"), ("A")].foldl (bumpBounded 2) []) = none := by
  refine ⟨?_, ?_, by decide, by decide, by decide, by decide⟩
  · unfold bumpBounded
    rw [hnew]
    simp [Nat.not_lt.mpr hfull]
  · unfold bumpBounded
    rw [hold]
    exact assocFind_assocSet_self kold (n + 1) m n hold

/-- Witness for C6: the map holding A and B is at ceiling 2; C is dropped
and A still increments. -/
theorem bounded_map_at_ceiling_witness :
    bumpBounded 2 [(("A"), 1), (("B"), 1)] ("C") = [(("A"), 1), (("B"), 1)] ∧
    assocFind ("A") (bumpBounded 2 [(("A"), 1), (("B"), 1)] ("A")) = some (1 + 1) ∧
    ([("A"), ("B"), ("C"), ("A")].foldl (bumpBounded 2) []).length = 2 ∧
    assocFind ("A") ([("A"), ("B"), ("C"), ("A")].foldl (bumpBounded 2) []) = some 2 ∧
    assocFind ("B") ([("A"), ("B"), ("C"), ("A")].foldl (bumpBounded 2) []) = some 1 ∧
    assocFind ("C") ([("A"), ("B"), ("C"), ("A")].foldl (bumpBounded 2) []) = none :=
  bounded_map_at_ceiling 2 [(("A"), 1), (("B"), 1)] ("C") ("A") 1
    (by decide) (by decide) (by decide)

end Stats

namespace Stats

theorem head?_take_pos {α : Type} (l : List α) (n : Nat) (h : 0 < n) :
    (l.take n).head? = l.head? := by
  cases l with
  | nil => simp
  | cons x t =>
    cases n with
    | zero => exact absurd h (by simp)
    | succ m => simp

theorem range_map_getD_eq_reverse_take {α : Type} (l : List α) (d : α) :
    ∀ n, n ≤ l.length →
      (List.range n).map (fun i => l.getD (l.length - 1 - i) d) = l.reverse.take n := by
  intro n
  induction n with
  | zero => intro _; simp
  | succ m ih =>
    intro h
    have hm : m ≤ l.length := Nat.le_of_succ_le h
    have hmlt : m < l.length := by omega
    have hidx : l.length - 1 - m < l.length := by omega
    rw [List.range_succ, List.map_append, ih hm, List.take_succ]
    have hrev : l.reverse[m]? = some (l.getD (l.length - 1 - m) d) := by
      rw [List.getElem?_reverse hmlt, List.getElem?_eq_getElem hidx,
        List.getD_eq_getElem l d hidx]
    rw [hrev]
    simp

theorem getRecentRequestsMem_eq_reverse_take (s : MemStats) (lim : Int) (h : 0 < lim) :
    getRecentRequestsMem s lim = s.recentRequests.reverse.take lim.toNat := by
  unfold getRecentRequestsMem
  by_cases h0 : s.recentRequests.length = 0
  · have : s.recentRequests = [] := List.length_eq_zero.mp h0
    simp [h0, this]
  · simp only [h0, if_false]
    by_cases hc : lim < (s.recentRequests.length : Int)
    · have hcount : (if 0 < lim ∧ lim < (s.recentRequests.length : Int) then lim.toNat
          else s.recentRequests.length) = lim.toNat := by
        simp [h, hc]
      rw [hcount]
      exact range_map_getD_eq_reverse_take s.recentRequests default lim.toNat (by omega)
    · have hcount : (if 0 < lim ∧ lim < (s.recentRequests.length : Int) then lim.toNat
          else s.recentRequests.length) = s.recentRequests.length := by
        simp [hc]
      rw [hcount]
      rw [range_map_getD_eq_reverse_take s.recentRequests default s.recentRequests.length
        (Nat.le_refl _)]
      rw [List.take_of_length_le (by rw [List.length_reverse]),
        List.take_of_length_le (by rw [List.length_reverse]; omega)]

theorem orderedInsert_append_last (x : RequestInfo) :
    ∀ l : List RequestInfo, (∀ b ∈ l, ¬ tsDescOrder x b) →
      List.orderedInsert tsDescOrder x l = l ++ [x] := by
  intro l
  induction l with
  | nil => intro _; rfl
  | cons b t ih =>
    intro h
    have hb : ¬ tsDescOrder x b := h b (by simp)
    simp only [List.orderedInsert, if_neg hb]
    rw [ih (fun c hc => h c (by simp [hc]))]
    simp

theorem sortByTimestampDesc_of_increasing :
    ∀ l : List RequestInfo, l.Pairwise (fun a b => a.timestamp < b.timestamp) →
      sortByTimestampDesc l = l.reverse := by
  intro l
  induction l with
  | nil => intro _; rfl
  | cons x xs ih =>
    intro h
    rw [List.pairwise_cons] at h
    obtain ⟨hx, hxs⟩ := h
    show List.orderedInsert tsDescOrder x (List.insertionSort tsDescOrder xs) = _
    rw [show List.insertionSort tsDescOrder xs = sortByTimestampDesc xs from rfl, ih hxs]
    rw [orderedInsert_append_last x xs.reverse (fun b hb => by
      have hmem : b ∈ xs := List.mem_reverse.mp hb
      exact not_le.mpr (hx b hmem))]
    simp

theorem dbGetRecentRequests_eq_reverse_take (db : DBState) (lim : Int) (h : 0 < lim)
    (hmono : db.requestLog.Pairwise (fun a b => a.timestamp < b.timestamp)) :
    dbGetRecentRequests db lim = db.requestLog.reverse.take lim.toNat := by
  unfold dbGetRecentRequests
  rw [sortByTimestampDesc_of_increasing db.requestLog hmono]
  have : ¬ lim < 0 := by omega
  simp [this]

/-- C7 counterexample: in the in-memory backend a limit of 0 returns the
whole one-element ring (length 1, not at most 0); and in the durable
backend, with two records committed at decreasing timestamps 5 then 3,
the first returned element is the timestamp-5 record, not the most
recently committed (timestamp-3) one. -/
theorem get_recent_requests_limit_zero :
    (getRecentRequestsMem (managerRecordMem newStats ("a") ("ua") ("/") 0) 0).length = 1 ∧
    (dbGetRecentRequests
        (replayDB [⟨("a"), ("u"), ("/"), 5⟩, ⟨("b"), ("v"), ("/w"), 3⟩] (initDB 0)) 10).head? =
      some ⟨("a"), ("u"), ("/"), 5⟩ ∧
    (⟨("a"), ("u"), ("/"), 5⟩ : RequestInfo) ≠ ⟨("b"), ("v"), ("/w"), 3⟩ := by
  refine ⟨by decide, by decide, by decide⟩

/-- C7 (amended): for every backend state and every positive limit,
GetRecentRequests returns the reversed commit-order log truncated to the
limit: at most limit records, most-recent-first, first element the most
recently committed record; for the durable backend this holds whenever the
log was committed in strictly increasing timestamp order, since its query
orders by timestamp, not by commit order. -/
theorem get_recent_requests_contract (s : MemStats) (db : DBState) (lim lim2 : Int)
    (h1 : 0 < lim) (h2 : 0 < lim2)
    (hmono : db.requestLog.Pairwise (fun a b => a.timestamp < b.timestamp)) :
    getRecentRequestsMem s lim = s.recentRequests.reverse.take lim.toNat ∧
    (getRecentRequestsMem s lim).length ≤ lim.toNat ∧
    (getRecentRequestsMem s lim).head? = s.recentRequests.getLast? ∧
    dbGetRecentRequests db lim2 = db.requestLog.reverse.take lim2.toNat ∧
    (dbGetRecentRequests db lim2).length ≤ lim2.toNat ∧
    (dbGetRecentRequests db lim2).head? = db.requestLog.getLast? := by
  have he1 := getRecentRequestsMem_eq_reverse_take s lim h1
  have he2 := dbGetRecentRequests_eq_reverse_take db lim2 h2 hmono
  refine ⟨he1, ?_, ?_, he2, ?_, ?_⟩
  · rw [he1, List.length_take]
    exact Nat.min_le_left _ _
  · rw [he1, head?_take_pos _ _ (by omega), List.head?_reverse]
  · rw [he2, List.length_take]
    exact Nat.min_le_left _ _
  · rw [he2, head?_take_pos _ _ (by omega), List.head?_reverse]

/-- Witness for C7: one recorded request in the in-memory backend and two
increasing-timestamp records in the durable backend, both read back with
limit 5. -/
theorem get_recent_requests_contract_witness :
    getRecentRequestsMem (managerRecordMem newStats ("a") ("ua") ("/") 0) 5 =
      (managerRecordMem newStats ("a") ("ua") ("/") 0).recentRequests.reverse.take
        ((5 : Int)).toNat ∧
    (getRecentRequestsMem (managerRecordMem newStats ("a") ("ua") ("/") 0) 5).length ≤
      ((5 : Int)).toNat ∧
    (getRecentRequestsMem (managerRecordMem newStats ("a") ("ua") ("/") 0) 5).head? =
      (managerRecordMem newStats ("a") ("ua") ("/") 0).recentRequests.getLast? ∧
    dbGetRecentRequests
        (replayDB [⟨("a"), ("u"), ("/"), 3⟩, ⟨("b"), ("v"), ("/w"), 5⟩] (initDB 0)) 5 =
      (replayDB [⟨("a"), ("u"), ("/"), 3⟩, ⟨("b"), ("v"), ("/w"), 5⟩]
        (initDB 0)).requestLog.reverse.take ((5 : Int)).toNat ∧
    (dbGetRecentRequests
        (replayDB [⟨("a"), ("u"), ("/"), 3⟩, ⟨("b"), ("v"), ("/w"), 5⟩] (initDB 0)) 5).length ≤
      ((5 : Int)).toNat ∧
    (dbGetRecentRequests
        (replayDB [⟨("a"), ("u"), ("/"), 3⟩, ⟨("b"), ("v"), ("/w"), 5⟩] (initDB 0)) 5).head? =
      (replayDB [⟨("a"), ("u"), ("/"), 3⟩, ⟨("b"), ("v"), ("/w"), 5⟩]
        (initDB 0)).requestLog.getLast? :=
  get_recent_requests_contract (managerRecordMem newStats ("a") ("ua") ("/") 0)
    (replayDB [⟨("a"), ("u"), ("/"), 3⟩, ⟨("b"), ("v"), ("/w"), 5⟩] (initDB 0)) 5 5
    (by decide) (by decide) (by decide)

/-- C8 counterexample: a 3-character label with maxLabelLength 2 makes the
slice index maxLabelLength - 3 negative, so GetChartData panics instead of
returning a 2-character truncated label. -/
theorem truncate_label_maxlen_two : truncateUA 2 ("abc") = none := by decide

/-- C8 (amended): for every maxLabelLength of at least 3, a label strictly
longer than maxLabelLength is returned as its first maxLabelLength - 3
characters plus the three-character ellipsis, of total length exactly
maxLabelLength; for maxLabelLength below 3 the slice expression panics. -/
theorem truncate_label_exact_length (maxLen : Int) (ua : String) (h3 : 3 ≤ maxLen)
    (hlong : maxLen < (ua.length : Int)) :
    ∃ pre : String, truncateUA maxLen ua = some (pre ++ ("...")) ∧
      (pre.length : Int) = maxLen - 3 ∧ ((pre ++ ("...")).length : Int) = maxLen := by
  refine ⟨String.mk (ua.toList.take (maxLen - 3).toNat), ?_, ?_, ?_⟩
  · have hneg : ¬ (maxLen - 3 < 0) := by omega
    simp [truncateUA, hlong, hneg]
  · show ((ua.toList.take (maxLen - 3).toNat).length : Int) = maxLen - 3
    rw [List.length_take]
    have hlen : ua.toList.length = ua.length := rfl
    omega
  · rw [String.length_append]
    have hpre : ((String.mk (ua.toList.take (maxLen - 3).toNat)).length : Int) =
        maxLen - 3 := by
      show ((ua.toList.take (maxLen - 3).toNat).length : Int) = maxLen - 3
      rw [List.length_take]
      have hlen : ua.toList.length = ua.length := rfl
      omega
    have hdots : (("...") : String).length = 3 := by decide
    push_cast
    omega

/-- Witness for C8: maxLabelLength 10 on a 15-character label gives a
10-character result ending in the ellipsis. -/
theorem truncate_label_exact_length_witness :
    ∃ pre : String, truncateUA 10 ("ABCDEFGHIJKLMNO") = some (pre ++ ("...")) ∧
      (pre.length : Int) = 10 - 3 ∧ ((pre ++ ("...")).length : Int) = 10 :=
  truncate_label_exact_length 10 ("ABCDEFGHIJKLMNO") (by decide) (by decide)

end Stats

namespace Stats

theorem migrate_from_files_noop (parseReq : String → Option RequestInfo)
    (parseStats : String → Option PersistedStats) (hasDataDir rr rs : Bool) (now : Int)
    (fs : LegacyFS) (db : DBState) (h1 : fs.requests = none) (h2 : fs.statsFile = none) :
    migrateFromFiles parseReq parseStats hasDataDir rr rs now fs db =
      (Except.ok (), fs, db) := by
  cases hasDataDir <;> simp [migrateFromFiles, h1, h2]

/-- C9 counterexample: with requests.ndjson present and its backup rename
failing, the first MigrateFromFiles run still returns nil (the rename
failure is only Warn-logged) but leaves the legacy file in place, having
imported its one request (total_requests 1); a second run re-imports the
same file and the durable aggregate state changes again (total_requests
2), so a nil-returning first run does not make the second run a no-op. -/
theorem migrate_rename_failure_not_idempotent :
    (migrateFromFiles (fun _ => some ⟨("9.9.9.9"), ("ua"), ("/p"), 7⟩) (fun _ => none)
        true false true 0 ⟨some [("line")], none, none, none⟩ (initDB 0)).1 =
      Except.ok () ∧
    ((migrateFromFiles (fun _ => some ⟨("9.9.9.9"), ("ua"), ("/p"), 7⟩) (fun _ => none)
        true false true 0 ⟨some [("line")], none, none, none⟩ (initDB 0)).2.2).totalRequests =
      1 ∧
    ((migrateFromFiles (fun _ => some ⟨("9.9.9.9"), ("ua"), ("/p"), 7⟩) (fun _ => none)
        true false true 0
        (migrateFromFiles (fun _ => some ⟨("9.9.9.9"), ("ua"), ("/p"), 7⟩) (fun _ => none)
          true false true 0 ⟨some [("line")], none, none, none⟩ (initDB 0)).2.1
        (migrateFromFiles (fun _ => some ⟨("9.9.9.9"), ("ua"), ("/p"), 7⟩) (fun _ => none)
          true false true 0 ⟨some [("line")], none, none, none⟩
          (initDB 0)).2.2).2.2).totalRequests = 2 := by
  refine ⟨rfl, by decide, by decide⟩

/-- C9 (amended): when a first MigrateFromFiles run succeeds and its
backup renames succeed, it has renamed every legacy file it consumed, so
a second run (whatever happens to that run's renames) finds no legacy
files and changes nothing; and a run on a directory with no legacy files
is a no-op.  Without the rename condition idempotence fails, because a
failed rename is only logged and the call still returns nil. -/
theorem migrate_from_files_idempotent_when_renames_succeed
    (parseReq : String → Option RequestInfo)
    (parseStats : String → Option PersistedStats) (hasDataDir rr2 rs2 : Bool)
    (now now2 : Int) (fs : LegacyFS) (db : DBState)
    (hok : (migrateFromFiles parseReq parseStats hasDataDir true true now fs db).1 =
      Except.ok ()) :
    migrateFromFiles parseReq parseStats hasDataDir rr2 rs2 now2
        (migrateFromFiles parseReq parseStats hasDataDir true true now fs db).2.1
        (migrateFromFiles parseReq parseStats hasDataDir true true now fs db).2.2 =
      (Except.ok (),
        (migrateFromFiles parseReq parseStats hasDataDir true true now fs db).2.1,
        (migrateFromFiles parseReq parseStats hasDataDir true true now fs db).2.2) ∧
    (fs.requests = none → fs.statsFile = none →
      migrateFromFiles parseReq parseStats hasDataDir true true now fs db =
        (Except.ok (), fs, db)) := by
  refine ⟨?_, fun h1 h2 => migrate_from_files_noop _ _ _ _ _ _ _ _ h1 h2⟩
  by_cases hd : hasDataDir
  · rcases hreq : fs.requests with _ | lines <;> rcases hst : fs.statsFile with _ | content
    · have heq := migrate_from_files_noop parseReq parseStats hasDataDir true true now
        fs db hreq hst
      rw [heq]
      exact migrate_from_files_noop _ _ _ _ _ _ _ _ hreq hst
    · cases hp : parseStats content with
      | none =>
        exfalso
        have herr : (migrateFromFiles parseReq parseStats hasDataDir true true now fs db).1 =
            Except.error ("failed to unmarshal stats") := by
          simp [migrateFromFiles, migrateStatsPhase, hd, hreq, hst, hp]
        rw [herr] at hok
        exact Except.noConfusion hok
      | some ps =>
        have heq : migrateFromFiles parseReq parseStats hasDataDir true true now fs db =
            (Except.ok (), { fs with statsFile := none, statsBak := some content },
              migrateStatsApply db ps) := by
          simp [migrateFromFiles, migrateStatsPhase, hd, hreq, hst, hp]
        rw [heq]
        exact migrate_from_files_noop _ _ _ _ _ _ _ _ (by simp [hreq]) (by simp)
    · have heq : migrateFromFiles parseReq parseStats hasDataDir true true now fs db =
          (Except.ok (), { fs with requests := none, requestsBak := some lines },
            importRequests parseReq now lines db) := by
        simp [migrateFromFiles, migrateStatsPhase, hd, hreq, hst]
      rw [heq]
      exact migrate_from_files_noop _ _ _ _ _ _ _ _ (by simp) (by simp [hst])
    · cases hp : parseStats content with
      | none =>
        exfalso
        have herr : (migrateFromFiles parseReq parseStats hasDataDir true true now fs db).1 =
            Except.error ("failed to unmarshal stats") := by
          simp [migrateFromFiles, migrateStatsPhase, hd, hreq, hst, hp]
        rw [herr] at hok
        exact Except.noConfusion hok
      | some ps =>
        have heq : migrateFromFiles parseReq parseStats hasDataDir true true now fs db =
            (Except.ok (),
              { fs with requests := none, requestsBak := some lines, statsFile := none, statsBak := some content },
              migrateStatsApply (importRequests parseReq now lines db) ps) := by
          simp [migrateFromFiles, migrateStatsPhase, hd, hreq, hst, hp]
        rw [heq]
        exact migrate_from_files_noop _ _ _ _ _ _ _ _ (by simp) (by simp)
  · have heq : migrateFromFiles parseReq parseStats hasDataDir true true now fs db =
        (Except.ok (), fs, db) := by
      simp [migrateFromFiles, hd]
    rw [heq]
    simp [migrateFromFiles, hd]

/-- Witness for C9: a configured data directory holding no legacy files,
with parse functions that accept nothing; the second run is taken with
both of its renames failing, which cannot matter on an empty directory. -/
theorem migrate_from_files_idempotent_when_renames_succeed_witness :
    migrateFromFiles (fun _ => none) (fun _ => none) true false false 0
        (migrateFromFiles (fun _ => none) (fun _ => none) true true true 0
          ⟨none, none, none, none⟩ (initDB 0)).2.1
        (migrateFromFiles (fun _ => none) (fun _ => none) true true true 0
          ⟨none, none, none, none⟩ (initDB 0)).2.2 =
      (Except.ok (),
        (migrateFromFiles (fun _ => none) (fun _ => none) true true true 0
          ⟨none, none, none, none⟩ (initDB 0)).2.1,
        (migrateFromFiles (fun _ => none) (fun _ => none) true true true 0
          ⟨none, none, none, none⟩ (initDB 0)).2.2) ∧
    ((⟨none, none, none, none⟩ : LegacyFS).requests = none →
      (⟨none, none, none, none⟩ : LegacyFS).statsFile = none →
      migrateFromFiles (fun _ => none) (fun _ => none) true true true 0
          ⟨none, none, none, none⟩ (initDB 0) =
        (Except.ok (), ⟨none, none, none, none⟩, initDB 0)) :=
  migrate_from_files_idempotent_when_renames_succeed (fun _ => none) (fun _ => none)
    true false false 0 0 ⟨none, none, none, none⟩ (initDB 0) rfl

end Stats
